import Mathlib

/-!
Verification of the nba-connections crawler (src/nba-connections/main.py)
against its natural-language specification.

The Python module is embedded shallowly:

* exceptions become `Except PyErr` results (a value `.error e` that reaches
  the top of a function models an exception propagating past it);
* the `while True:` walk loop of `get_historic_rosters` becomes a
  fuel-indexed recursion returning `Option` (`none` = fuel exhausted,
  i.e. the loop is still running after that many iterations);
* Python `dict` becomes an insertion-ordered association list with the
  update-in-place-or-append semantics of `d[k] = v`;
* the season year is an `Int`, matching Python's unbounded signed `int`
  (so `year - 1` never truncates);
* parsed HTML is modelled by the record types below, which hold exactly
  the data the source's BeautifulSoup queries can observe.
-/

/-- Errors a run of the embedded program can raise.  `nameError s` models a
Python `NameError` for the unbound identifier `s`; `attributeError` models
`AttributeError` (an attribute lookup on `None`); `httpStatusError` models
`requests.HTTPError` raised by `raise_for_status`; `transportError` models a
`requests.ConnectionError`-style failure raised by `session.get` itself. -/
inductive PyErr : Type
  | nameError (missing : String)
  | attributeError
  | httpStatusError
  | transportError
deriving DecidableEq, Repr

/-- Module constant `BASE_URL` of main.py (line 7). -/
def BASE_URL : String := "https://www.basketball-reference.com"

/-- An `<a>` element as the source reads it: its visible text
(`team_link.text`) and its `href` attribute (`team_link["href"]`). -/
structure Anchor : Type where
  text : String
  href : String
deriving DecidableEq, Repr

/-- A `<td>` cell of a roster row: its text and its first `<a>` descendant,
if any (`cell.a` is `None` in BeautifulSoup when the cell has no anchor). -/
structure Cell : Type where
  text : String
  a : Option Anchor
deriving DecidableEq, Repr

/-- A `<tr>` roster row, as the list of its `<td>` cells keyed by their
`data-stat` attribute, in document order. -/
structure TableRow : Type where
  cells : List (String × Cell)
deriving DecidableEq, Repr

/-- `table_row.find("td", {"data-stat": stat})`: the first cell of the row
whose `data-stat` attribute equals `stat`, or `none`. -/
def TableRow.findCell (r : TableRow) (stat : String) : Option Cell :=
  (r.cells.find? (fun p => p.1 == stat)).map (fun p => p.2)

/-- A player record as built by `player_info_helper` (main.py lines 73-79). -/
structure PlayerRecord : Type where
  name : String
  position : String
  height : String
  weight : String
  birthdate : String
deriving DecidableEq, Repr

/-- A fetched roster page as the source's queries observe it:
`roster = some rows` models `soup.find("table", {"id": "roster"}).tbody`
existing with `rows` as its `<tr>` children (`none` models either the table
or its tbody being absent, which makes the source's attribute access raise
`AttributeError`); `links` is the list of `href` values of the page's `<a>`
elements, which is all `soup.find("a", {"href": endpoint})` can test. -/
structure RosterPage : Type where
  roster : Option (List TableRow)
  links : List String
deriving DecidableEq, Repr

/-- Outcome of `session.get(url)` in the walker, which calls it without
`raise_for_status`: either a parsed page or a raised transport failure. -/
inductive FetchOutcome : Type
  | page (p : RosterPage)
  | fail
deriving DecidableEq, Repr

/-- Outcome of `session.get(url)` in `get_page_html`, where the HTTP status
matters because `raise_for_status` is called: a response carrying a status
code and body text, or a raised transport failure. -/
inductive GetResult : Type
  | resp (status : Nat) (text : String)
  | transportFail
deriving DecidableEq, Repr

/-- Python `d[k] = v` on an insertion-ordered `dict`: if the key is present
its value is updated in place, otherwise the pair is appended. -/
def dictInsert {α β : Type} [BEq α] (d : List (α × β)) (k : α) (v : β) :
    List (α × β) :=
  if d.any (fun p => p.1 == k) then
    d.map (fun p => if p.1 == k then (k, v) else p)
  else
    d ++ [(k, v)]

/-- Numeric value of four digit characters, as `int` applied to the matched
four-character string. -/
def digitsToNat (a b c d : Char) : Nat :=
  (((a.toNat - 48) * 10 + (b.toNat - 48)) * 10 + (c.toNat - 48)) * 10 +
    (d.toNat - 48)

/-- Leftmost window of four consecutive digit characters in a character
list, as `re.search(r"\d{4}", s)` finds it; `none` when no such window
exists (in which case the source's `.group(0)` raises `AttributeError`). -/
def firstFour : List Char → Option Nat
  | a :: b :: c :: d :: rest =>
    if a.isDigit && b.isDigit && c.isDigit && d.isDigit then
      some (digitsToNat a b c d)
    else
      firstFour (b :: c :: d :: rest)
  | _ => none

/-- `int(re.search(r"\d{4}", s).group(0))` on success (main.py line 142). -/
def firstFourDigits (s : String) : Option Nat :=
  firstFour s.data

/-- `f"/teams/{team}/{year}.html"`, the predecessor-season path pattern of
main.py line 149 (there instantiated at `year - 1`). -/
def prevSeasonEndpoint (team : String) (year : Int) : String :=
  s!"/teams/{team}/{year}.html"

/-- `get_page_html(url)` (main.py lines 11-34), as a function of the outcome
of its one `session.get`.  The first component is the returned value or the
exception escaping the function; the second counts `time.sleep(3.1)` calls.
Faithful to the source: on a 4xx/5xx status, `raise_for_status` raises
`HTTPError`, the sleep inside the `try` is skipped, the handler only logs,
and the function still returns `response.text`; a transport failure raised
by `session.get` itself is not an `HTTPError` and escapes uncaught. -/
def get_page_html (r : GetResult) : Except PyErr String × Nat :=
  match r with
  | .transportFail => (.error .transportError, 0)
  | .resp status text =>
    if 400 ≤ status ∧ status < 600 then
      (.ok text, 0)
    else
      (.ok text, 1)

/-- `player_info_helper(table_row)` (main.py lines 61-79).  Each
`table_row.find(...)` returning `None` makes the subsequent `.a` or `.text`
access raise `AttributeError`, as does `.text` on a player cell with no
anchor. -/
def player_info_helper (table_row : TableRow) : Except PyErr PlayerRecord :=
  match table_row.findCell "player" with
  | none => .error .attributeError
  | some player_cell =>
    match player_cell.a with
    | none => .error .attributeError
    | some link =>
      match table_row.findCell "pos" with
      | none => .error .attributeError
      | some pos_cell =>
        match table_row.findCell "height" with
        | none => .error .attributeError
        | some height_cell =>
          match table_row.findCell "weight" with
          | none => .error .attributeError
          | some weight_cell =>
            match table_row.findCell "birth_date" with
            | none => .error .attributeError
            | some birth_cell =>
              .ok
                { name := link.text
                  position := pos_cell.text
                  height := height_cell.text
                  weight := weight_cell.text
                  birthdate := birth_cell.text }

/-- `get_players(roster_table)` (main.py lines 82-97): iterate the rows in
document order, appending one record per row; an exception in
`player_info_helper` aborts the loop and escapes, discarding the partial
list. -/
def get_players : List TableRow → Except PyErr (List PlayerRecord)
  | [] => .ok []
  | row :: rest =>
    match player_info_helper row with
    | .error e => .error e
    | .ok p =>
      match get_players rest with
      | .error e => .error e
      | .ok ps => .ok (p :: ps)

/-- A `<th>` header cell of a conference table, holding its first `<a>`
descendant if any (`team_header.a`). -/
structure TeamHeader : Type where
  a : Option Anchor
deriving DecidableEq, Repr

/-- A conference `<table>` on the landing page: `tbody = some hs` models its
tbody existing with header cells `hs` (`none` makes `conference_table.tbody`
evaluate to `None` and the subsequent `find_all` raise `AttributeError`). -/
structure ConfTable : Type where
  tbody : Option (List TeamHeader)
deriving DecidableEq, Repr

/-- The `div#teams` container: `div = some ts` models its first `<div>`
child existing and containing the conference tables `ts`. -/
structure TeamsSection : Type where
  div : Option (List ConfTable)
deriving DecidableEq, Repr

/-- A parsed landing page: `teams = some s` models
`soup.find("div", {"id": "teams"})` succeeding with section `s`. -/
structure LandingPage : Type where
  teams : Option TeamsSection
deriving DecidableEq, Repr

/-- Inner loop of `get_team_urls` (main.py lines 54-56): fold the header
cells of one conference table into the accumulating dictionary; a header
with no anchor makes `team_link.text` raise `AttributeError`. -/
def resolveHeaders (acc : List (String × String)) :
    List TeamHeader → Except PyErr (List (String × String))
  | [] => .ok acc
  | th :: rest =>
    match th.a with
    | none => .error .attributeError
    | some link =>
      resolveHeaders (dictInsert acc link.text (BASE_URL ++ link.href)) rest

/-- Outer loop of `get_team_urls` (main.py lines 53-56): fold the conference
tables in order. -/
def resolveTables (acc : List (String × String)) :
    List ConfTable → Except PyErr (List (String × String))
  | [] => .ok acc
  | t :: rest =>
    match t.tbody with
    | none => .error .attributeError
    | some hs =>
      match resolveHeaders acc hs with
      | .error e => .error e
      | .ok acc2 => resolveTables acc2 rest

/-- `get_team_urls()` (main.py lines 37-58) as a function of the parsed
landing page it fetched: locate `div#teams`, take its first inner `<div>`,
and fold every conference table's header links into a dictionary mapping
link text to `BASE_URL` + href.  A missing container raises
`AttributeError` past the function. -/
def get_team_urls (page : LandingPage) : Except PyErr (List (String × String)) :=
  match page.teams with
  | none => .error .attributeError
  | some sec =>
    match sec.div with
    | none => .error .attributeError
    | some tables => resolveTables [] tables

/-- A landing page of the valid shape (teams container, inner div, a tbody
per conference table, an anchor per header cell), built from the anchors it
presents, one inner list per conference table. -/
def mkLandingPage (confs : List (List Anchor)) : LandingPage :=
  { teams :=
      some
        { div :=
            some
              (confs.map (fun c =>
                { tbody := some (c.map (fun l => { a := some l })) })) } }

/-- The call `api_delay()` on main.py line 140 exactly as the module under
src/ defines it: no definition, assignment or import binds the name
`api_delay` anywhere in main.py, so evaluating the name raises
`NameError`. -/
def api_delay_literal : Except PyErr Unit := .error (.nameError "api_delay")

/-- Modelled from the spec: the Rate Limiter `wait()` of spec section 4.1,
standing in for the function `api_delay` that main.py line 140 calls but
that is absent from src/.  Per the spec it blocks for a fixed interval and
has no state or effect beyond the delay and a log line, so in a pure
embedding it is a successful no-op. -/
def api_delay_spec : Except PyErr Unit := .ok ()

/-- The `while True:` walk of `get_historic_rosters` (main.py lines
138-153), for one team.  `delay` is the behaviour of the `api_delay()`
call; `site` gives the outcome of `session.get` per URL; `fuel` bounds the
number of iterations (`none` = still looping after `fuel` iterations);
`historic` is the accumulated `historic_rosters` dict and `fetches` counts
`session.get` calls.  On success the result carries the final dict and the
total fetch count; `.error` models an exception escaping the loop. -/
def walkLoop (delay : Except PyErr Unit) (site : String → FetchOutcome)
    (team : String) :
    Nat → String → List (Int × List PlayerRecord) → Nat →
    Option (Except PyErr (List (Int × List PlayerRecord) × Nat))
  | 0, _, _, _ => none
  | fuel + 1, current_url, historic, fetches =>
    match site current_url with
    | .fail => some (.error .transportError)
    | .page p =>
      match delay with
      | .error e => some (.error e)
      | .ok _ =>
        match firstFourDigits current_url with
        | none => some (.error .attributeError)
        | some n =>
          let year : Int := n
          match p.roster with
          | none => some (.error .attributeError)
          | some rows =>
            match get_players rows with
            | .error e => some (.error e)
            | .ok ps =>
              let historic2 := dictInsert historic year ps
              let endpoint := prevSeasonEndpoint team (year - 1)
              if p.links.contains endpoint then
                walkLoop delay site team fuel (BASE_URL ++ endpoint)
                  historic2 (fetches + 1)
              else
                some (.ok (historic2, fetches + 1))

/-- The per-team loop of `get_historic_rosters` (main.py lines 135-155):
walk each team in directory order, storing the finished per-team dict under
the team key; an exception escaping a walk escapes the whole function,
discarding everything. -/
def get_historic_rosters_go (delay : Except PyErr Unit)
    (site : String → FetchOutcome) (fuel : Nat) :
    List (String × String) → List (String × List (Int × List PlayerRecord)) →
    Option (Except PyErr (List (String × List (Int × List PlayerRecord))))
  | [], rosters => some (.ok rosters)
  | (team, url) :: rest, rosters =>
    match walkLoop delay site team fuel url [] 0 with
    | none => none
    | some (.error e) => some (.error e)
    | some (.ok (historic, _)) =>
      get_historic_rosters_go delay site fuel rest
        (dictInsert rosters team historic)

/-- `get_historic_rosters()` (main.py lines 121-157) as a function of the
team directory it would obtain from `get_team_urls` and of the `session.get`
outcomes. -/
def get_historic_rosters (delay : Except PyErr Unit)
    (site : String → FetchOutcome) (fuel : Nat)
    (team_urls : List (String × String)) :
    Option (Except PyErr (List (String × List (Int × List PlayerRecord)))) :=
  get_historic_rosters_go delay site fuel team_urls []

/-- Loop body sequence of `get_current_rosters` (main.py lines 112-116).
For each team it calls `get_page_html`; if that returns, line 114 then
evaluates `BeautifulSoup(response.text, "lxml")`, but no local or global
binding of `response` exists in that scope, so a `NameError` is raised and
the rest of the loop body is never reached. -/
def get_current_rosters_go (site : String → GetResult) :
    List (String × String) → List (String × List PlayerRecord) →
    Except PyErr (List (String × List PlayerRecord))
  | [], rosters => .ok rosters
  | (_team, url) :: _rest, _rosters =>
    match (get_page_html (site url)).1 with
    | .error e => .error e
    | .ok _html_response => .error (.nameError "response")

/-- `get_current_rosters()` (main.py lines 100-118) as a function of the
team directory and of the `session.get` outcomes. -/
def get_current_rosters (site : String → GetResult)
    (team_urls : List (String × String)) :
    Except PyErr (List (String × List PlayerRecord)) :=
  get_current_rosters_go site team_urls []

/-- Text of the cell with the given `data-stat` key, empty if absent (only
used under well-formedness, where the cell is present). -/
def rowCellText (r : TableRow) (stat : String) : String :=
  match r.findCell stat with
  | some c => c.text
  | none => ""

/-- Text of the anchor inside the row's player cell, empty if absent. -/
def rowAnchorText (r : TableRow) : String :=
  match (r.findCell "player").bind Cell.a with
  | some link => link.text
  | none => ""

/-- The record the spec prescribes for a well-formed row: name from the
player cell's anchor text, the other four fields from the cell texts. -/
def specRecord (r : TableRow) : PlayerRecord :=
  { name := rowAnchorText r
    position := rowCellText r "pos"
    height := rowCellText r "height"
    weight := rowCellText r "weight"
    birthdate := rowCellText r "birth_date" }

/-- A row is well-formed when all five expected cells are present and the
player cell contains an anchor. -/
def wellFormedRow (r : TableRow) : Bool :=
  ((r.findCell "player").bind Cell.a).isSome &&
    (r.findCell "pos").isSome &&
    (r.findCell "height").isSome &&
    (r.findCell "weight").isSome &&
    (r.findCell "birth_date").isSome

/-- A row is missing one of the five expected cells. -/
def rowMissingCell (r : TableRow) : Bool :=
  (r.findCell "player").isNone ||
    (r.findCell "pos").isNone ||
    (r.findCell "height").isNone ||
    (r.findCell "weight").isNone ||
    (r.findCell "birth_date").isNone

/-- A season chain as the walker traverses it: `SeasonChain site team url y
entries` says that starting at `url`, whose embedded 4-digit year is `y`,
the site presents a finite backward chain of roster pages whose per-page
fetches succeed and whose rosters extract cleanly, each page but the last
linking to the previous season's path, the last lacking that link; `entries`
collects `(year, roster)` in walk order. -/
inductive SeasonChain (site : String → FetchOutcome) (team : String) :
    String → Int → List (Int × List PlayerRecord) → Prop
  | last (url : String) (p : RosterPage) (n : Nat) (rows : List TableRow)
      (ps : List PlayerRecord) :
      site url = .page p →
      firstFourDigits url = some n →
      p.roster = some rows →
      get_players rows = .ok ps →
      p.links.contains (prevSeasonEndpoint team ((n : Int) - 1)) = false →
      SeasonChain site team url (n : Int) [((n : Int), ps)]
  | cons (url : String) (p : RosterPage) (n : Nat) (rows : List TableRow)
      (ps : List PlayerRecord) (rest : List (Int × List PlayerRecord)) :
      site url = .page p →
      firstFourDigits url = some n →
      p.roster = some rows →
      get_players rows = .ok ps →
      p.links.contains (prevSeasonEndpoint team ((n : Int) - 1)) = true →
      SeasonChain site team
        (BASE_URL ++ prevSeasonEndpoint team ((n : Int) - 1))
        ((n : Int) - 1) rest →
      SeasonChain site team url (n : Int) (((n : Int), ps) :: rest)

/-- A walk prefix that ends in a failed fetch: `FailWalk site team url j`
says that starting at `url`, `j` pages fetch and extract cleanly and link
onward, and the fetch of the page after them (the `(j+1)`-st fetch of the
walk) raises a transport failure. -/
inductive FailWalk (site : String → FetchOutcome) (team : String) :
    String → Nat → Prop
  | here (url : String) :
      site url = .fail →
      FailWalk site team url 0
  | step (url : String) (p : RosterPage) (n : Nat) (rows : List TableRow)
      (ps : List PlayerRecord) (j : Nat) :
      site url = .page p →
      firstFourDigits url = some n →
      p.roster = some rows →
      get_players rows = .ok ps →
      p.links.contains (prevSeasonEndpoint team ((n : Int) - 1)) = true →
      FailWalk site team
        (BASE_URL ++ prevSeasonEndpoint team ((n : Int) - 1)) j →
      FailWalk site team url (j + 1)

/-- The list `y, y - 1, ..., y - (k - 1)` of `k` consecutive descending
years starting at `y`. -/
def yearsFrom (y : Int) : Nat → List Int
  | 0 => []
  | k + 1 => y :: yearsFrom (y - 1) k

/-- Concrete seed URL used by the witness fixtures below. -/
def seedA : String := "https://www.basketball-reference.com/teams/AAA/2024.html"

/-- Fixture: the 2024 page of team AAA, empty roster table, with a link to
the 2023 season. -/
def pageA0 : RosterPage :=
  { roster := some [], links := ["/teams/AAA/2023.html"] }

/-- Fixture: the 2023 page of team AAA, empty roster table, no predecessor
link. -/
def pageA1 : RosterPage := { roster := some [], links := [] }

/-- Fixture site: a two-page season chain for team AAA; every other URL
fails at transport level. -/
def siteA : String → FetchOutcome := fun u =>
  if u = seedA then .page pageA0
  else if u = BASE_URL ++ "/teams/AAA/2023.html" then .page pageA1
  else .fail

/-- Fixture site: the 2024 page of team AAA links to 2023, but the fetch of
the 2023 page (the second fetch of the walk) fails at transport level. -/
def siteB : String → FetchOutcome := fun u =>
  if u = seedA then .page pageA0 else .fail

/-- Fixture: a well-formed roster row for one player. -/
def rowDoe : TableRow :=
  { cells :=
      [("player", { text := "John Doe", a := some { text := "John Doe", href := "/players/d/doe.html" } }),
       ("pos", { text := "PG", a := none }),
       ("height", { text := "6-2", a := none }),
       ("weight", { text := "185", a := none }),
       ("birth_date", { text := "May 1, 1990", a := none })] }

/-- Fixture: a second well-formed roster row. -/
def rowRoe : TableRow :=
  { cells :=
      [("player", { text := "Jane Roe", a := some { text := "Jane Roe", href := "/players/r/roe.html" } }),
       ("pos", { text := "C", a := none }),
       ("height", { text := "6-11", a := none }),
       ("weight", { text := "240", a := none }),
       ("birth_date", { text := "Jun 2, 1992", a := none })] }

/-- Fixture: a faulty roster row with no position cell. -/
def rowNoPos : TableRow :=
  { cells :=
      [("player", { text := "Max Poe", a := some { text := "Max Poe", href := "/players/p/poe.html" } }),
       ("height", { text := "6-7", a := none }),
       ("weight", { text := "210", a := none }),
       ("birth_date", { text := "Jul 3, 1991", a := none })] }

/-- Fixture: the two team anchors of the spec's landing-page example. -/
def anchorAAA : Anchor := { text := "AAA", href := "/teams/AAA/2024.html" }

/-- Fixture: second team anchor of the spec's landing-page example. -/
def anchorBBB : Anchor := { text := "BBB", href := "/teams/BBB/2024.html" }

/-- Inserting a key absent from the dictionary appends the pair. -/
theorem dictInsert_fresh {α β : Type} [BEq α] [LawfulBEq α]
    (d : List (α × β)) (k : α) (v : β) (h : ∀ p ∈ d, p.1 ≠ k) :
    dictInsert d k v = d ++ [(k, v)] := by
  unfold dictInsert
  rw [if_neg]
  simp only [List.any_eq_true, beq_iff_eq, not_exists, not_and]
  intro p hp
  exact h p hp

/-- A season chain's entry list starts with the chain's own year. -/
theorem seasonChain_head {site : String → FetchOutcome} {team url : String}
    {y : Int} {entries : List (Int × List PlayerRecord)}
    (h : SeasonChain site team url y entries) :
    ∃ ps rest, entries = (y, ps) :: rest := by
  cases h with
  | last url p n rows ps h1 h2 h3 h4 h5 => exact ⟨ps, [], rfl⟩
  | cons url p n rows ps rest h1 h2 h3 h4 h5 h6 => exact ⟨ps, rest, rfl⟩

/-- Every year recorded along a season chain is at most the start year. -/
theorem seasonChain_years_le {site : String → FetchOutcome} {team url : String}
    {y : Int} {entries : List (Int × List PlayerRecord)}
    (h : SeasonChain site team url y entries) :
    ∀ q ∈ entries, q.1 ≤ y := by
  induction h with
  | last url p n rows ps h1 h2 h3 h4 h5 =>
    intro q hq
    simp only [List.mem_singleton] at hq
    simp [hq]
  | cons url p n rows ps rest h1 h2 h3 h4 h5 h6 ih =>
    intro q hq
    rcases List.mem_cons.mp hq with hq | hq
    · simp [hq]
    · have := ih q hq
      omega

/-- Walking a season chain with the spec-modelled delay succeeds for any
fuel bound covering the chain, appends exactly the chain's entries to the
accumulated dictionary, and performs exactly one fetch per chain page. -/
theorem walkLoop_seasonChain {site : String → FetchOutcome} {team url : String}
    {y : Int} {entries : List (Int × List PlayerRecord)}
    (h : SeasonChain site team url y entries) :
    ∀ fuel acc fc, entries.length ≤ fuel →
      (∀ q ∈ entries, ∀ a2 ∈ acc, a2.1 ≠ q.1) →
      walkLoop api_delay_spec site team fuel url acc fc =
        some (.ok (acc ++ entries, fc + entries.length)) := by
  induction h with
  | last url p n rows ps h1 h2 h3 h4 h5 =>
    intro fuel acc fc hfuel hfresh
    cases fuel with
    | zero => simp at hfuel
    | succ f =>
      simp only [walkLoop, h1, h2, h3, h4, api_delay_spec, h5]
      rw [dictInsert_fresh]
      · simp
      · intro q hq
        exact hfresh ((n : Int), ps) (by simp) q hq
  | cons url p n rows ps rest h1 h2 h3 h4 h5 h6 ih =>
    intro fuel acc fc hfuel hfresh
    cases fuel with
    | zero => simp at hfuel
    | succ f =>
      simp only [api_delay_spec] at ih ⊢
      simp only [walkLoop, h1, h2, h3, h4, h5, if_true]
      rw [dictInsert_fresh acc ((n : Int)) ps
          (fun q hq => hfresh ((n : Int), ps) (by simp) q hq)]
      rw [ih f (acc ++ [((n : Int), ps)]) (fc + 1)
          (by simp only [List.length_cons] at hfuel; omega)
          ?_]
      · have happ : (acc ++ [((n : Int), ps)]) ++ rest =
            acc ++ ((n : Int), ps) :: rest := by simp
        have hlen2 : fc + 1 + rest.length =
            fc + (((n : Int), ps) :: rest).length := by
          simp only [List.length_cons]; omega
        rw [happ, hlen2]
      · intro q hq a2 ha2
        rcases List.mem_append.mp ha2 with ha2 | ha2
        · exact hfresh q (List.mem_cons_of_mem _ hq) a2 ha2
        · simp only [List.mem_singleton] at ha2
          subst ha2
          have := seasonChain_years_le h6 q hq
          simp only
          omega

/-- The years recorded along a season chain are consecutive descending
integers starting at the chain's start year. -/
theorem seasonChain_years {site : String → FetchOutcome} {team url : String}
    {y : Int} {entries : List (Int × List PlayerRecord)}
    (h : SeasonChain site team url y entries) :
    entries.map Prod.fst = yearsFrom y entries.length := by
  induction h with
  | last url p n rows ps h1 h2 h3 h4 h5 => simp [yearsFrom]
  | cons url p n rows ps rest h1 h2 h3 h4 h5 h6 ih =>
    simp only [List.map_cons, List.length_cons, yearsFrom]
    rw [ih]

/-- Along a season chain, each recorded year is exactly one less than its
predecessor. -/
theorem seasonChain_chain' {site : String → FetchOutcome} {team url : String}
    {y : Int} {entries : List (Int × List PlayerRecord)}
    (h : SeasonChain site team url y entries) :
    List.Chain' (fun a b => b.1 = a.1 - 1) entries := by
  induction h with
  | last url p n rows ps h1 h2 h3 h4 h5 => simp
  | cons url p n rows ps rest h1 h2 h3 h4 h5 h6 ih =>
    obtain ⟨ps2, rest2, hrest⟩ := seasonChain_head h6
    subst hrest
    exact List.Chain'.cons rfl ih

/-- A walk whose `(j+1)`-st fetch fails at transport level makes the whole
walk evaluate to the propagating transport error, for any sufficient fuel. -/
theorem walkLoop_failWalk {site : String → FetchOutcome} {team url : String}
    {j : Nat} (h : FailWalk site team url j) :
    ∀ fuel acc fc, j < fuel →
      walkLoop api_delay_spec site team fuel url acc fc =
        some (.error .transportError) := by
  induction h with
  | here url h1 =>
    intro fuel acc fc hfuel
    cases fuel with
    | zero => simp at hfuel
    | succ f => simp only [walkLoop, h1]
  | step url p n rows ps j h1 h2 h3 h4 h5 h6 ih =>
    intro fuel acc fc hfuel
    cases fuel with
    | zero => simp at hfuel
    | succ f =>
      simp only [api_delay_spec] at ih ⊢
      simp only [walkLoop, h1, h2, h3, h4, h5, if_true]
      exact ih f _ _ (by omega)

/-- The fixture site `siteA` presents a two-page season chain for team
AAA with years 2024 and 2023. -/
theorem seasonChain_fixtureA :
    SeasonChain siteA "AAA" seedA 2024 [(2024, []), (2023, [])] :=
  SeasonChain.cons seedA pageA0 2024 [] [] [(2023, [])]
    rfl rfl rfl rfl rfl
    (SeasonChain.last (BASE_URL ++ prevSeasonEndpoint "AAA" ((2024 : Int) - 1))
      pageA1 2023 [] [] rfl rfl rfl rfl rfl)

/-- C1: For every team whose season chain is a finite sequence of K linked
pages (page i links to the previous season's path for i < K-1, the last
page has no predecessor link), the historical walk of
`get_historic_rosters` terminates for every fuel bound ≥ K, records exactly
the K chain entries with years baseYear, baseYear-1, ..., baseYear-K+1 in
that team's inner mapping, performs exactly K fetches (no K+1st fetch), and
the full function maps the team to exactly those entries.  The rate-limit
delay is the spec-modelled `api_delay_spec`, since `api_delay` is absent
from src/. -/
theorem c1_historic_walk_chain
    (site : String → FetchOutcome) (team url : String) (y : Int)
    (entries : List (Int × List PlayerRecord)) (K fuel : Nat)
    (h : SeasonChain site team url y entries)
    (hK : entries.length = K) (hfuel : K ≤ fuel) :
    walkLoop api_delay_spec site team fuel url [] 0 =
      some (.ok (entries, K)) ∧
    entries.map Prod.fst = yearsFrom y K ∧
    get_historic_rosters api_delay_spec site fuel [(team, url)] =
      some (.ok [(team, entries)]) := by
  have hwalk := walkLoop_seasonChain h fuel [] 0 (by omega) (by simp)
  simp only [List.nil_append, Nat.zero_add] at hwalk
  refine ⟨by rw [hwalk, hK], ?_, ?_⟩
  · rw [seasonChain_years h, hK]
  · unfold get_historic_rosters get_historic_rosters_go
    rw [hwalk]
    simp [get_historic_rosters_go, dictInsert]

/-- Witness for C1 at the concrete two-page fixture chain. -/
theorem c1_witness :
    walkLoop api_delay_spec siteA "AAA" 5 seedA [] 0 =
      some (.ok ([(2024, []), (2023, [])], 2)) ∧
    ([((2024 : Int), ([] : List PlayerRecord)), (2023, [])]).map Prod.fst =
      yearsFrom 2024 2 ∧
    get_historic_rosters api_delay_spec siteA 5 [("AAA", seedA)] =
      some (.ok [("AAA", [(2024, []), (2023, [])])]) :=
  c1_historic_walk_chain siteA "AAA" seedA 2024 [(2024, []), (2023, [])] 2 5
    seasonChain_fixtureA rfl (by decide)

/-- C9: Within a single team's historical walk over a season chain, the
SeasonYear key recorded at each successive iteration — parsed from the
4-digit year embedded in the current URL — strictly decreases by exactly 1
per step until the walk terminates.  The delay is the spec-modelled
`api_delay_spec`, since `api_delay` is absent from src/. -/
theorem c9_walk_years_strictly_decrease
    (site : String → FetchOutcome) (team url : String) (y : Int)
    (entries : List (Int × List PlayerRecord)) (fuel : Nat)
    (h : SeasonChain site team url y entries)
    (hfuel : entries.length ≤ fuel) :
    walkLoop api_delay_spec site team fuel url [] 0 =
      some (.ok (entries, entries.length)) ∧
    List.Chain' (fun a b => b.1 = a.1 - 1) entries := by
  have hwalk := walkLoop_seasonChain h fuel [] 0 hfuel (by simp)
  simp only [List.nil_append, Nat.zero_add] at hwalk
  exact ⟨hwalk, seasonChain_chain' h⟩

/-- Witness for C9 at the concrete two-page fixture chain. -/
theorem c9_witness :
    walkLoop api_delay_spec siteA "AAA" 2 seedA [] 0 =
      some (.ok ([(2024, []), (2023, [])],
        ([((2024 : Int), ([] : List PlayerRecord)), (2023, [])]).length)) ∧
    List.Chain' (fun a b => b.1 = a.1 - 1)
      [((2024 : Int), ([] : List PlayerRecord)), (2023, [])] :=
  c9_walk_years_strictly_decrease siteA "AAA" seedA 2024
    [(2024, []), (2023, [])] 2 seasonChain_fixtureA (by decide)

/-- C3 (amended): if the fetch of a page of a team's walk fails after j
cleanly processed pages, the exception propagates out of
`get_historic_rosters`: the run aborts with the transport error, the
team's partial per-team mapping is discarded, and the remaining teams of
the directory are never walked.  (The claim's described behaviour — keep
the partial mapping, continue with the next team — does not hold:
`get_historic_rosters` contains no exception handling.) -/
theorem c3_amended_walk_failure_aborts_run
    (site : String → FetchOutcome) (team url : String) (j fuel : Nat)
    (rest : List (String × String))
    (h : FailWalk site team url j) (hfuel : j < fuel) :
    get_historic_rosters api_delay_spec site fuel ((team, url) :: rest) =
      some (.error .transportError) := by
  unfold get_historic_rosters get_historic_rosters_go
  rw [walkLoop_failWalk h fuel [] 0 hfuel]

/-- On the fixture site `siteB`, team AAA's walk fails at its second
fetch. -/
theorem failWalk_fixtureB : FailWalk siteB "AAA" seedA 1 :=
  FailWalk.step seedA pageA0 2024 [] [] 0 rfl rfl rfl rfl rfl
    (FailWalk.here (BASE_URL ++ prevSeasonEndpoint "AAA" ((2024 : Int) - 1)) rfl)

/-- Witness for the amended C3 at the concrete fixture. -/
theorem c3_amended_witness :
    get_historic_rosters api_delay_spec siteB 5 [("AAA", seedA), ("BBB", seedA)] =
      some (.error .transportError) :=
  c3_amended_walk_failure_aborts_run siteB "AAA" seedA 1 5 [("BBB", seedA)]
    failWalk_fixtureB (by decide)

/-- C3: counterexample to the claim as stated.  With team AAA's 2024 page
fetched and extracted successfully but the fetch of its 2023 page failing,
`get_historic_rosters` on the directory [AAA, BBB] evaluates to the
propagating transport error: the partial entry (2024, roster) for AAA is
not kept in any returned mapping, and the walker does not proceed to team
BBB. -/
theorem c3_counterexample :
    get_historic_rosters api_delay_spec siteB 4
      [("AAA", seedA), ("BBB", seedA)] =
      some (.error .transportError) := rfl

/-- C2: main.py defines or imports the name `api_delay` nowhere, so for
every team directory with at least one team whose seed fetch returns a
page, `get_historic_rosters` raises `NameError` for `api_delay` on the
first iteration of its walk loop; moreover for every site, fuel bound and
non-empty directory the function never returns a historical dataset. -/
theorem c2_api_delay_undefined
    (site : String → FetchOutcome) (team url : String)
    (rest : List (String × String)) (fuel : Nat) (p : RosterPage)
    (hpage : site url = .page p) (hfuel : 1 ≤ fuel) :
    get_historic_rosters api_delay_literal site fuel ((team, url) :: rest) =
      some (.error (.nameError "api_delay")) ∧
    (∀ (site2 : String → FetchOutcome) (teams : List (String × String))
        (fuel2 : Nat) (r : List (String × List (Int × List PlayerRecord))),
      teams ≠ [] →
      get_historic_rosters api_delay_literal site2 fuel2 teams ≠
        some (.ok r)) := by
  constructor
  · cases fuel with
    | zero => omega
    | succ f =>
      unfold get_historic_rosters get_historic_rosters_go
      simp only [walkLoop, hpage, api_delay_literal]
  · intro site2 teams fuel2 r hne
    cases teams with
    | nil => exact absurd rfl hne
    | cons hd rest2 =>
      obtain ⟨t, u⟩ := hd
      cases fuel2 with
      | zero =>
        unfold get_historic_rosters get_historic_rosters_go
        simp [walkLoop]
      | succ f2 =>
        unfold get_historic_rosters get_historic_rosters_go
        cases hsite : site2 u with
        | fail => simp [walkLoop, hsite]
        | page p2 => simp [walkLoop, hsite, api_delay_literal]

/-- Witness for C2 at a concrete one-team directory. -/
theorem c2_witness :
    get_historic_rosters api_delay_literal siteA 1 [("AAA", seedA)] =
      some (.error (.nameError "api_delay")) ∧
    (∀ (site2 : String → FetchOutcome) (teams : List (String × String))
        (fuel2 : Nat) (r : List (String × List (Int × List PlayerRecord))),
      teams ≠ [] →
      get_historic_rosters api_delay_literal site2 fuel2 teams ≠
        some (.ok r)) :=
  c2_api_delay_undefined siteA "AAA" seedA [] 1 pageA0 rfl (by decide)

/-- Unfolding of `get_page_html` on a response carrying a status code. -/
theorem get_page_html_resp (status : Nat) (text : String) :
    get_page_html (.resp status text) =
      if 400 ≤ status ∧ status < 600 then (.ok text, 0) else (.ok text, 1) :=
  rfl

/-- Whenever `session.get` returns a response, `get_page_html` returns its
body text, whatever the status code. -/
theorem get_page_html_resp_fst (s : Nat) (t : String) :
    (get_page_html (.resp s t)).1 = .ok t := by
  rw [get_page_html_resp]
  split <;> rfl

/-- C5: counterexample to the claim as stated.  On HTTP status 404,
`get_page_html` returns the error page's body as an ordinary successful
result — not a FetchError value identifying URL and cause — and on a
transport failure the exception escapes the function instead of being
turned into a FetchError. -/
theorem c5_counterexample :
    get_page_html (.resp 404 "error page body") =
      (.ok "error page body", 0) ∧
    get_page_html .transportFail = (.error .transportError, 0) :=
  ⟨rfl, rfl⟩

/-- C5 (amended): on a non-success HTTP status (400-599), `get_page_html`
catches the `HTTPError` raised by `raise_for_status`, only logs it, skips
the delay, and returns the response body text as if the fetch had
succeeded; on a transport failure the exception propagates past the
function's boundary.  No FetchError-like value exists in the program. -/
theorem c5_amended_no_fetch_error_value (status : Nat) (text : String)
    (h4 : 400 ≤ status) (h6 : status < 600) :
    get_page_html (.resp status text) = (.ok text, 0) ∧
    get_page_html .transportFail = (.error .transportError, 0) := by
  refine ⟨?_, rfl⟩
  rw [get_page_html_resp, if_pos ⟨h4, h6⟩]

/-- Witness for the amended C5 at HTTP status 503. -/
theorem c5_witness :
    (400 ≤ 503 ∧ 503 < 600) ∧
    get_page_html (.resp 503 "unavailable") = (.ok "unavailable", 0) ∧
    get_page_html .transportFail = (.error .transportError, 0) :=
  ⟨by omega,
    c5_amended_no_fetch_error_value 503 "unavailable" (by omega) (by omega)⟩

/-- C4: counterexample to the claim as stated.  A fetch attempt answered
with HTTP status 500 — a failed fetch — is accompanied by zero rate-limit
delay invocations, not exactly one. -/
theorem c4_counterexample :
    (get_page_html (.resp 500 "server error")).2 = 0 := rfl

/-- C4 (amended): in `get_page_html` the rate-limit delay is invoked
exactly once per successful fetch and zero times when the fetch ends in a
4xx/5xx HTTP error (the sleep inside the `try` is skipped once
`raise_for_status` raises) or in a transport failure.  (In
`get_historic_rosters` the delay call names the undefined `api_delay`, so
no delay ever runs there either.) -/
theorem c4_amended_delay_only_on_success (status : Nat) (text : String) :
    (¬(400 ≤ status ∧ status < 600) →
      get_page_html (.resp status text) = (.ok text, 1)) ∧
    ((400 ≤ status ∧ status < 600) →
      (get_page_html (.resp status text)).2 = 0) ∧
    (get_page_html .transportFail).2 = 0 := by
  refine ⟨?_, ?_, rfl⟩
  · intro h
    rw [get_page_html_resp, if_neg h]
  · intro h
    rw [get_page_html_resp, if_pos h]

/-- Witness for the amended C4 at statuses 200 and 429. -/
theorem c4_witness :
    get_page_html (.resp 200 "ok body") = (.ok "ok body", 1) ∧
    (get_page_html (.resp 429 "too many")).2 = 0 :=
  ⟨(c4_amended_delay_only_on_success 200 "ok body").1 (by omega),
    (c4_amended_delay_only_on_success 429 "too many").2.1 (by omega)⟩

/-- C10: contrary to the claim, for every non-empty team directory
`get_current_rosters` raises instead of returning a mapping: once the
first team's fetch returns, line 114 evaluates the unbound name `response`
(a slip for `html_response`) and raises `NameError`; if the first fetch
fails at transport level that exception propagates instead.  The claimed
behaviour is the docstring's evident intent, so this is a code bug. -/
theorem c10_current_rosters_never_returns
    (site : String → GetResult) (team url : String)
    (rest : List (String × String)) :
    (∀ (s : Nat) (t : String), site url = .resp s t →
      get_current_rosters site ((team, url) :: rest) =
        .error (.nameError "response")) ∧
    (site url = .transportFail →
      get_current_rosters site ((team, url) :: rest) =
        .error .transportError) := by
  constructor
  · intro s t hs
    unfold get_current_rosters get_current_rosters_go
    simp only [hs, get_page_html_resp_fst]
  · intro hs
    unfold get_current_rosters get_current_rosters_go
    simp only [hs]
    rfl

/-- Witness for C10 at a concrete one-team directory. -/
theorem c10_witness :
    get_current_rosters (fun _ => .resp 200 "<html></html>")
      [("AAA", "https://www.basketball-reference.com/teams/AAA/2024.html")] =
      .error (.nameError "response") :=
  (c10_current_rosters_never_returns (fun _ => .resp 200 "<html></html>")
    "AAA" "https://www.basketball-reference.com/teams/AAA/2024.html" []).1
    200 "<html></html>" rfl

/-- Folding the header cells built from a list of anchors with pairwise
distinct texts extends the dictionary by one entry per anchor, in order. -/
theorem resolveHeaders_anchors (links : List Anchor) :
    ∀ acc : List (String × String),
      (∀ l ∈ links, ∀ p ∈ acc, p.1 ≠ l.text) →
      (links.map Anchor.text).Nodup →
      resolveHeaders acc (links.map (fun l => { a := some l })) =
        .ok (acc ++ links.map (fun l => (l.text, BASE_URL ++ l.href))) := by
  induction links with
  | nil => intro acc hfresh hnodup; simp [resolveHeaders]
  | cons l ls ih =>
    intro acc hfresh hnodup
    simp only [List.map_cons, resolveHeaders]
    rw [dictInsert_fresh acc l.text (BASE_URL ++ l.href)
        (fun p hp => hfresh l (by simp) p hp)]
    rw [ih (acc ++ [(l.text, BASE_URL ++ l.href)]) ?_ ?_]
    · simp
    · intro l2 hl2 p hp
      rcases List.mem_append.mp hp with hp | hp
      · exact hfresh l2 (List.mem_cons_of_mem _ hl2) p hp
      · simp only [List.mem_singleton] at hp
        subst hp
        simp only [List.map_cons, List.nodup_cons, List.mem_map] at hnodup
        intro he
        exact hnodup.1 ⟨l2, hl2, he.symm⟩
    · simp only [List.map_cons, List.nodup_cons] at hnodup
      exact hnodup.2

/-- Folding conference tables built from anchor lists with globally
distinct texts extends the dictionary by one entry per anchor, in order. -/
theorem resolveTables_anchors (confs : List (List Anchor)) :
    ∀ acc : List (String × String),
      (∀ l ∈ confs.flatten, ∀ p ∈ acc, p.1 ≠ l.text) →
      ((confs.flatten).map Anchor.text).Nodup →
      resolveTables acc
          (confs.map (fun c =>
            { tbody := some (c.map (fun l => { a := some l })) })) =
        .ok (acc ++
          (confs.flatten).map (fun l => (l.text, BASE_URL ++ l.href))) := by
  induction confs with
  | nil => intro acc hfresh hnodup; simp [resolveTables]
  | cons c cs ih =>
    intro acc hfresh hnodup
    simp only [List.flatten_cons, List.map_append, List.nodup_append] at hnodup
    have hH := resolveHeaders_anchors c acc
        (fun l hl p hp => hfresh l (by simp [List.flatten_cons, hl]) p hp)
        hnodup.1
    have hfresh2 : ∀ l ∈ cs.flatten,
        ∀ p ∈ acc ++ c.map (fun l => (l.text, BASE_URL ++ l.href)),
        p.1 ≠ l.text := by
      intro l2 hl2 p hp
      rcases List.mem_append.mp hp with hp | hp
      · exact hfresh l2 (by simp [List.flatten_cons, hl2]) p hp
      · obtain ⟨l3, hl3, rfl⟩ := List.mem_map.mp hp
        intro he
        simp only at he
        exact hnodup.2.2 (List.mem_map_of_mem Anchor.text hl3)
          (he ▸ List.mem_map_of_mem Anchor.text hl2)
    have hT := ih (acc ++ c.map (fun l => (l.text, BASE_URL ++ l.href)))
      hfresh2 hnodup.2.1
    simp only [List.map_cons, resolveTables, hH, hT, List.flatten_cons,
      List.map_append, List.append_assoc]

/-- C6: for every valid landing page — teams container with inner div,
conference tables with tbodys, one anchor per header cell, and distinct
link texts — `get_team_urls` returns exactly one entry per team link
present, each key the link's visible text and each value `BASE_URL`
concatenated with the link's href. -/
theorem c6_team_directory (confs : List (List Anchor))
    (hnodup : ((confs.flatten).map Anchor.text).Nodup) :
    get_team_urls (mkLandingPage confs) =
      .ok ((confs.flatten).map (fun l => (l.text, BASE_URL ++ l.href))) := by
  unfold get_team_urls mkLandingPage
  simp only
  rw [resolveTables_anchors confs [] (by simp) hnodup]
  simp

/-- Witness for C6 at the spec's two-team landing-page example. -/
theorem c6_witness :
    ((([[anchorAAA, anchorBBB]] : List (List Anchor)).flatten.map
      Anchor.text).Nodup) ∧
    get_team_urls (mkLandingPage [[anchorAAA, anchorBBB]]) =
      .ok [("AAA", BASE_URL ++ "/teams/AAA/2024.html"),
           ("BBB", BASE_URL ++ "/teams/BBB/2024.html")] :=
  ⟨by decide, c6_team_directory [[anchorAAA, anchorBBB]] (by decide)⟩

/-- On a well-formed row, `player_info_helper` returns exactly the record
the spec prescribes: name from the player cell's anchor text, the other
four fields from the cell texts. -/
theorem player_info_helper_wellFormed (r : TableRow)
    (h : wellFormedRow r = true) :
    player_info_helper r = .ok (specRecord r) := by
  unfold wellFormedRow at h
  simp only [Bool.and_eq_true, Option.isSome_iff_exists] at h
  obtain ⟨⟨⟨⟨⟨la, hla⟩, pc, hpc⟩, hc, hhc⟩, wc, hwc⟩, bc, hbc⟩ := h
  obtain ⟨plc, hplc, hplca⟩ := Option.bind_eq_some.mp hla
  unfold player_info_helper specRecord rowAnchorText rowCellText
  simp only [hplc, hplca, hpc, hhc, hwc, hbc, Option.some_bind]

/-- C7: for every roster table whose rows are all well formed,
`get_players` returns exactly one record per row, in document row order,
each record's five fields equal to the corresponding cell texts of its row
(the name taken from the anchor text of the player cell). -/
theorem c7_extraction_wellformed (rows : List TableRow)
    (h : ∀ r ∈ rows, wellFormedRow r = true) :
    get_players rows = .ok (rows.map specRecord) := by
  induction rows with
  | nil => rfl
  | cons r rs ih =>
    simp only [get_players,
      player_info_helper_wellFormed r (h r (by simp)),
      ih (fun r2 h2 => h r2 (List.mem_cons_of_mem _ h2)), List.map_cons]

/-- Witness for C7 at a concrete two-row roster table. -/
theorem c7_witness :
    (∀ r ∈ [rowDoe, rowRoe], wellFormedRow r = true) ∧
    get_players [rowDoe, rowRoe] =
      .ok [{ name := "John Doe", position := "PG", height := "6-2",
             weight := "185", birthdate := "May 1, 1990" },
           { name := "Jane Roe", position := "C", height := "6-11",
             weight := "240", birthdate := "Jun 2, 1992" }] :=
  ⟨by decide, c7_extraction_wellformed [rowDoe, rowRoe] (by decide)⟩

/-- The only exception `player_info_helper` can raise is
`AttributeError`. -/
theorem player_info_helper_error_kind (r : TableRow) (e : PyErr)
    (h : player_info_helper r = .error e) : e = .attributeError := by
  unfold player_info_helper at h
  rcases h1 : r.findCell "player" with _ | plc
  · simp only [h1] at h
    injection h with h2
    exact h2.symm
  · rcases h2 : plc.a with _ | la
    · simp only [h1, h2] at h
      injection h with h3
      exact h3.symm
    · rcases h3 : r.findCell "pos" with _ | posc
      · simp only [h1, h2, h3] at h
        injection h with h4
        exact h4.symm
      · rcases h4 : r.findCell "height" with _ | hc
        · simp only [h1, h2, h3, h4] at h
          injection h with h5
          exact h5.symm
        · rcases h5 : r.findCell "weight" with _ | wc
          · simp only [h1, h2, h3, h4, h5] at h
            injection h with h6
            exact h6.symm
          · rcases h6 : r.findCell "birth_date" with _ | bc
            · simp only [h1, h2, h3, h4, h5, h6] at h
              injection h with h7
              exact h7.symm
            · simp only [h1, h2, h3, h4, h5, h6] at h
              exact Except.noConfusion h

/-- A row missing one of the five expected cells makes
`player_info_helper` raise `AttributeError`. -/
theorem player_info_helper_missing (r : TableRow)
    (h : rowMissingCell r = true) :
    player_info_helper r = .error .attributeError := by
  unfold rowMissingCell at h
  simp only [Bool.or_eq_true, Option.isNone_iff_eq_none] at h
  unfold player_info_helper
  rcases h1 : r.findCell "player" with _ | plc
  · rfl
  · rcases h2 : plc.a with _ | la
    · simp [h2]
    · rcases h3 : r.findCell "pos" with _ | posc
      · simp [h2, h3]
      · rcases h4 : r.findCell "height" with _ | hc
        · simp [h2, h3, h4]
        · rcases h5 : r.findCell "weight" with _ | wc
          · simp [h2, h3, h4, h5]
          · rcases h6 : r.findCell "birth_date" with _ | bc
            · simp [h2, h3, h4, h5, h6]
            · simp [h1, h3, h4, h5, h6] at h

/-- C8: for every roster table containing at least one row that is
missing any of the five expected cells, extraction of the whole table
fails with `AttributeError`: no partial record is fabricated for the
faulty row and no result sequence is produced for the table. -/
theorem c8_extraction_fails_on_missing_cell (rows : List TableRow)
    (h : ∃ r ∈ rows, rowMissingCell r = true) :
    get_players rows = .error .attributeError := by
  induction rows with
  | nil => simp at h
  | cons r rs ih =>
    obtain ⟨r2, hmem, hr2⟩ := h
    rcases List.mem_cons.mp hmem with rfl | hmem2
    · simp only [get_players, player_info_helper_missing r2 hr2]
    · simp only [get_players]
      cases hh : player_info_helper r with
      | error e => rw [player_info_helper_error_kind r e hh]
      | ok p => rw [ih ⟨r2, hmem2, hr2⟩]

/-- Witness for C8 at a concrete table whose middle row lacks the
position cell. -/
theorem c8_witness :
    (∃ r ∈ [rowDoe, rowNoPos, rowRoe], rowMissingCell r = true) ∧
    get_players [rowDoe, rowNoPos, rowRoe] = .error .attributeError :=
  ⟨by decide,
    c8_extraction_fails_on_missing_cell [rowDoe, rowNoPos, rowRoe] (by decide)⟩
